import Mathlib

/-!
Verification of the core authentication logic of a biometric access-control
application: account lockout (database.py), PIN hashing (pin_auth.py), signed
session tokens (session.py), the blink-based liveness state machine
(liveness.py) and the login orchestrator (login.py).

Timestamps are modelled as natural numbers counting whole seconds, matching the
second-granular `"%Y-%m-%d %H:%M:%S"` strings the source stores.  Strings that
are parsed character-by-character (PIN hashes, session tokens) are modelled as
`List Char`; opaque cryptographic primitives (SHA-256, HMAC-SHA256) and the
base64/JSON payload serialisation are parameters of the definitions, with
their relevant properties (collision-freeness, fixed-length hex output,
round-tripping) taken as explicit hypotheses where a claim needs them.
-/

namespace BioAuth

/-! ## Generic helpers -/

/-- Python str.split(sep, 1): split at the first occurrence of the separator;
`none` when the separator does not occur (in the source, 2-tuple unpacking of
the split then raises, which the callers catch). -/
def splitAtFirst (sep : Char) : List Char → Option (List Char × List Char)
  | [] => none
  | c :: cs =>
      if c = sep then some ([], cs)
      else (splitAtFirst sep cs).map (fun p => (c :: p.1, p.2))

theorem splitAtFirst_append (sep : Char) (l r : List Char) (hl : sep ∉ l) :
    splitAtFirst sep (l ++ sep :: r) = some (l, r) := by
  induction l with
  | nil => simp [splitAtFirst]
  | cons c cs ih =>
      have hc : ¬ c = sep := fun hc => hl (hc ▸ List.mem_cons_self c cs)
      have hcs : sep ∉ cs := fun h => hl (List.mem_cons_of_mem c h)
      simp only [List.cons_append, splitAtFirst, if_neg hc]
      rw [show cs.append (sep :: r) = cs ++ sep :: r from rfl, ih hcs]
      rfl

/-! ## Lockout guard (database.py)

The `lockouts` SQL table (`identifier UNIQUE, fail_count, locked_until`) is
modelled as an association list keyed by the identifier.  `locked_until` is a
nullable timestamp. -/

structure LockRec where
  fail_count : Nat
  locked_until : Option Nat
  deriving DecidableEq, Repr

abbrev LockTable := List (String × LockRec)

/-- SELECT ... WHERE identifier = ? (fetchone: the first matching row). -/
def lookupLock : LockTable → String → Option LockRec
  | [], _ => none
  | p :: ps, id => if p.1 = id then some p.2 else lookupLock ps id

/-- INSERT ... ON CONFLICT(identifier) DO UPDATE: replace the row when the key
is present (the identifier is UNIQUE, so at most one row matches), append a
fresh row otherwise. -/
def upsertLock : LockTable → String → LockRec → LockTable
  | [], id, r => [(id, r)]
  | p :: ps, id, r =>
      if p.1 = id then (id, r) :: ps else p :: upsertLock ps id r

/-- database.get_lockout: returns (fail_count, locked_until), or (0, none) when
no row exists. -/
def get_lockout (tbl : LockTable) (id : String) : Nat × Option Nat :=
  match lookupLock tbl id with
  | some r => (r.fail_count, r.locked_until)
  | none => (0, none)

/-- database.record_failure at time `now`: increment the fail count; lock for
30 seconds once the count reaches 5.  Returns the updated (fail_count,
locked_until) together with the updated table. -/
def record_failure (now : Nat) (id : String) (tbl : LockTable) :
    (Nat × Option Nat) × LockTable :=
  let fail_count := (get_lockout tbl id).1 + 1
  let locked_until : Option Nat := if 5 ≤ fail_count then some (now + 30) else none
  ((fail_count, locked_until), upsertLock tbl id ⟨fail_count, locked_until⟩)

/-- database.reset_failures: DELETE FROM lockouts WHERE identifier = ?. -/
def reset_failures (id : String) : LockTable → LockTable
  | [] => []
  | p :: ps =>
      if p.1 = id then reset_failures id ps else p :: reset_failures id ps

/-- database.is_locked_out at time `now`: (true, seconds_remaining) while a
future `locked_until` is stored; a stale `locked_until` is lazily reset.
Returns the answer together with the (possibly healed) table. -/
def is_locked_out (now : Nat) (id : String) (tbl : LockTable) :
    (Bool × Nat) × LockTable :=
  match (get_lockout tbl id).2 with
  | some locked_dt =>
      if now < locked_dt then ((true, locked_dt - now), tbl)
      else ((false, 0), reset_failures id tbl)
  | none => ((false, 0), tbl)

/-- Fold a sequence of `record_failure` calls (given by their times) over the
table, for one identifier. -/
def recordFailures (id : String) (ts : List Nat) (tbl : LockTable) : LockTable :=
  ts.foldl (fun tb t => (record_failure t id tb).2) tbl

theorem lookupLock_upsert_self (tbl : LockTable) (id : String) (r : LockRec) :
    lookupLock (upsertLock tbl id r) id = some r := by
  induction tbl with
  | nil => simp [upsertLock, lookupLock]
  | cons p ps ih =>
      by_cases hp : p.1 = id
      · simp [upsertLock, lookupLock, hp]
      · simp only [upsertLock, if_neg hp]
        simp only [lookupLock, if_neg hp]
        exact ih

theorem lookupLock_reset_self (tbl : LockTable) (id : String) :
    lookupLock (reset_failures id tbl) id = none := by
  induction tbl with
  | nil => rfl
  | cons p ps ih =>
      by_cases hp : p.1 = id
      · simpa only [reset_failures, if_pos hp] using ih
      · simp only [reset_failures, if_neg hp]
        simp only [lookupLock, if_neg hp]
        exact ih

/-! ## PIN hashing (pin_auth.py) -/

/-- pin_auth.SEPARATOR: the stored format is salt $ digest. -/
def pinSep : Char := '$'

/-- pin_auth._hash_pin with an explicit salt: salt ++ "$" ++ H(salt ++ pin),
where `H` stands for the SHA-256 hex digest. -/
def hash_pin (H : List Char → List Char) (salt pin : List Char) : List Char :=
  salt ++ pinSep :: H (salt ++ pin)

/-- pin_auth.verify_pin: recover the salt from the stored record (split at the
first "$"), recompute the hash and compare; malformed records (no "$") verify
as false. -/
def verify_pin (H : List Char → List Char) (pin stored : List Char) : Bool :=
  match splitAtFirst pinSep stored with
  | some (salt, _) => hash_pin H salt pin = stored
  | none => false

/-- pin_auth.prompt_verify_pin's retry loop: up to `attempts` submitted entries
are checked with verify_pin; the dialog reports success at the first correct
entry and failure when the attempts are exhausted or the user stops entering
PINs (cancel). -/
def prompt_verify (H : List Char → List Char) (stored : List Char) :
    Nat → List (List Char) → Bool
  | _, [] => false
  | 0, _ :: _ => false
  | attempts + 1, e :: rest =>
      if verify_pin H e stored then true else prompt_verify H stored attempts rest

/-! ## Session issuer (session.py)

The token wire format is base64(JSON payload) ++ "." ++ hex(HMAC-SHA256).
`sign` stands for the keyed HMAC-SHA256 hex digest with the process-wide
secret, `enc`/`dec` for base64-of-JSON serialisation and deserialisation of the
payload.  The sessions SQL table is an association list keyed by the token. -/

/-- The "." separator between the encoded payload and the signature. -/
def tokSep : Char := '.'

structure SessPayload where
  username : List Char
  created_at : Nat
  expires_at : Nat
  nonce : List Char
  deriving DecidableEq, Repr

structure SessRec where
  username : List Char
  created_at : Nat
  expires_at : Nat
  active : Bool
  deriving DecidableEq, Repr

abbrev SessTable := List (List Char × SessRec)

/-- SELECT active FROM sessions WHERE token = ? (fetchone: first match). -/
def lookupSess : SessTable → List Char → Option SessRec
  | [], _ => none
  | p :: ps, tok => if p.1 = tok then some p.2 else lookupSess ps tok

/-- session.SESSION_DURATION_MINUTES = 30, in seconds. -/
def sessionDuration : Nat := 30 * 60

/-- session.create_session at time `now`: build the payload with
expires_at = now + 30min and a fresh nonce, encode it, sign the encoding, and
persist a row with active = true (INSERT).  Returns the token and the updated
table. -/
def create_session (sign : List Char → List Char) (enc : SessPayload → List Char)
    (now : Nat) (username nonce : List Char) (tbl : SessTable) :
    List Char × SessTable :=
  let payload : SessPayload := ⟨username, now, now + sessionDuration, nonce⟩
  let encoded := enc payload
  let sig := sign encoded
  let token := encoded ++ tokSep :: sig
  (token, tbl ++ [(token, ⟨username, now, now + sessionDuration, true⟩)])

/-- Python token.rsplit(".", 1): split at the last "." of the token; `none`
when no "." occurs (the 2-tuple unpacking then raises ValueError, which
validate_session catches). -/
def rsplitSep (l : List Char) : Option (List Char × List Char) :=
  match splitAtFirst tokSep l.reverse with
  | none => none
  | some (sigRev, encRev) => some (encRev.reverse, sigRev.reverse)

/-- session.invalidate_session: UPDATE sessions SET active = 0 WHERE token = ?. -/
def invalidate_session (tok : List Char) : SessTable → SessTable
  | [] => []
  | p :: ps =>
      if p.1 = tok then (p.1, { p.2 with active := false }) :: invalidate_session tok ps
      else p :: invalidate_session tok ps

/-- session.validate_session at time `now`: split off the signature, verify it,
decode the payload, reject (and proactively deactivate the stored row) when
expired, and finally require the stored row to still be active.  The `none`
branch of `dec` models the json/base64 decode failing; it is unreachable for a
token whose signature was produced by `sign` on an `enc`-encoded payload.
Returns the payload (or `none`) together with the updated table. -/
def validate_session (sign : List Char → List Char)
    (dec : List Char → Option SessPayload) (now : Nat) (token : List Char)
    (tbl : SessTable) : Option SessPayload × SessTable :=
  match rsplitSep token with
  | none => (none, tbl)
  | some (encoded, sig) =>
      if sign encoded = sig then
        match dec encoded with
        | some payload =>
            if payload.expires_at < now then (none, invalidate_session token tbl)
            else
              match lookupSess tbl token with
              | some r => if r.active then (some payload, tbl) else (none, tbl)
              | none => (none, tbl)
        | none => (none, tbl)
      else (none, tbl)

/-! ### Session table lemmas -/

theorem rsplitSep_append (p s : List Char) (hs : tokSep ∉ s) :
    rsplitSep (p ++ tokSep :: s) = some (p, s) := by
  have hrev : tokSep ∉ s.reverse := fun h => hs (List.mem_reverse.mp h)
  have : (p ++ tokSep :: s).reverse = s.reverse ++ tokSep :: p.reverse := by
    simp [List.reverse_append]
  rw [rsplitSep, this, splitAtFirst_append tokSep s.reverse p.reverse hrev]
  simp

theorem lookupSess_append_fresh (tbl : SessTable) (tok : List Char) (r : SessRec)
    (h : lookupSess tbl tok = none) :
    lookupSess (tbl ++ [(tok, r)]) tok = some r := by
  induction tbl with
  | nil => simp [lookupSess]
  | cons p ps ih =>
      by_cases hp : p.1 = tok
      · simp [lookupSess, if_pos hp] at h
      · simp only [lookupSess, if_neg hp] at h
        simp only [List.cons_append, lookupSess, if_neg hp]
        exact ih h

theorem invalidate_session_idem (tok : List Char) (tbl : SessTable) :
    invalidate_session tok (invalidate_session tok tbl) = invalidate_session tok tbl := by
  induction tbl with
  | nil => rfl
  | cons p ps ih =>
      by_cases hp : p.1 = tok
      · simp only [invalidate_session, if_pos hp]
        rw [ih]
      · simp only [invalidate_session, if_neg hp]
        rw [ih]

theorem lookupSess_invalidate (tok : List Char) (tbl : SessTable) :
    lookupSess (invalidate_session tok tbl) tok
      = (lookupSess tbl tok).map (fun r => { r with active := false }) := by
  induction tbl with
  | nil => rfl
  | cons p ps ih =>
      by_cases hp : p.1 = tok
      · simp only [invalidate_session, if_pos hp, lookupSess, hp]
        simp
      · simp only [invalidate_session, if_neg hp, lookupSess]
        exact ih

/-! ## Liveness blink state machine (liveness.py)

Per face-bearing frame, check_liveness appends the frame's averaged eye-open
ratio to a 4-sample history, smooths it by the moving average, classifies the
frame as closed when the smoothed value is below EYE_CLOSED_RATIO = 0.23, and
runs the blink counter.  Ratios are modelled as rationals. -/

/-- liveness.CONSEC_CLOSED: closed frames needed for a blink to count. -/
def consecClosedMin : Nat := 2

/-- liveness.HISTORY_LEN: ratio smoothing window. -/
def historyLen : Nat := 4

/-- liveness.EYE_CLOSED_RATIO = 0.23: smoothed ratio below this = closed. -/
def eyeClosedThreshold : ℚ := 23 / 100

/-- The mutable per-session state of the blink loop. -/
structure LivState where
  blink_count : Nat
  consec_closed : Nat
  eye_was_open : Bool
  ratio_history : List ℚ
  deriving DecidableEq, Repr

/-- Initial state: blink_count = 0, consec_closed = 0, eye_was_open = True,
ratio_history = []. -/
def livInit : LivState := ⟨0, 0, true, []⟩

/-- ratio_history.append(x) followed by pop(0) when the length exceeds
HISTORY_LEN. -/
def pushRatio (hist : List ℚ) (x : ℚ) : List ℚ :=
  let h := hist ++ [x]
  if historyLen < h.length then h.tail else h

/-- np.mean over the history. -/
def smoothedOf (hist : List ℚ) : ℚ := hist.sum / (hist.length : ℚ)

/-- Whether the frame with incoming averaged ratio `x` is classified closed in
state `s`: the smoothed ratio (after the history update) is below the closed
threshold. -/
def livClosed (s : LivState) (x : ℚ) : Bool :=
  smoothedOf (pushRatio s.ratio_history x) < eyeClosedThreshold

/-- One face-bearing frame of the blink state machine (liveness.py lines
277-293): update the smoothing history; on a closed frame grow the
consecutive-closed counter; on an open frame count a blink exactly when the
counter reached CONSEC_CLOSED and the previous frame was not open, clearing
the smoothing history on a counted blink; finally record whether the eye was
open this frame. -/
def livStep (s : LivState) (x : ℚ) : LivState :=
  let hist := pushRatio s.ratio_history x
  if livClosed s x then
    ⟨s.blink_count, s.consec_closed + 1, false, hist⟩
  else
    if consecClosedMin ≤ s.consec_closed ∧ s.eye_was_open = false then
      ⟨s.blink_count + 1, 0, true, []⟩
    else
      ⟨s.blink_count, 0, true, hist⟩

/-- Run the machine from the initial state over a list of per-frame ratios. -/
def livRun (xs : List ℚ) : LivState := xs.foldl livStep livInit

/-- The closed/open trace of a run: the `eye_closed` bit of each frame. -/
def livTraceFrom (s : LivState) : List ℚ → List Bool
  | [] => []
  | x :: xs => livClosed s x :: livTraceFrom (livStep s x) xs

def livTrace (xs : List ℚ) : List Bool := livTraceFrom livInit xs

/-- Length of the trailing run of `true` (closed frames) in a trace. -/
def trailTrue (l : List Bool) : Nat := (l.reverse.takeWhile id).length

theorem trailTrue_nil : trailTrue [] = 0 := rfl

theorem trailTrue_append_true (l : List Bool) :
    trailTrue (l ++ [true]) = trailTrue l + 1 := by
  simp [trailTrue, List.reverse_append, List.takeWhile]

theorem trailTrue_append_false (l : List Bool) :
    trailTrue (l ++ [false]) = 0 := by
  simp [trailTrue, List.reverse_append, List.takeWhile]

theorem livTraceFrom_append (s : LivState) (xs : List ℚ) (x : ℚ) :
    livTraceFrom s (xs ++ [x])
      = livTraceFrom s xs ++ [livClosed (xs.foldl livStep s) x] := by
  induction xs generalizing s with
  | nil => rfl
  | cons y ys ih =>
      simp only [List.cons_append, livTraceFrom, List.foldl_cons]
      exact congrArg (List.cons (livClosed s y)) (ih (livStep s y))

/-- State invariant of the blink machine: the consecutive-closed counter equals
the length of the trailing closed run of the trace, and `eye_was_open` holds
exactly when that run is empty. -/
theorem livRun_invariant (xs : List ℚ) :
    (livRun xs).consec_closed = trailTrue (livTrace xs)
      ∧ (livRun xs).eye_was_open = decide (trailTrue (livTrace xs) = 0) := by
  induction xs using List.reverseRecOn with
  | nil => constructor <;> rfl
  | append_singleton ys y ih =>
      obtain ⟨ihc, iho⟩ := ih
      have hrun : livRun (ys ++ [y]) = livStep (livRun ys) y := by
        simp [livRun, List.foldl_append]
      have htr : livTrace (ys ++ [y]) = livTrace ys ++ [livClosed (livRun ys) y] := by
        simpa [livTrace, livRun] using livTraceFrom_append livInit ys y
      rw [hrun, htr]
      by_cases hc : livClosed (livRun ys) y
      · rw [hc]
        simp only [livStep, hc, if_true, trailTrue_append_true]
        constructor
        · simpa using ihc
        · simp
      · have hc' : livClosed (livRun ys) y = false := by
          simpa using hc
        rw [hc']
        simp only [livStep, hc', if_false, Bool.false_eq_true]
        by_cases hb : consecClosedMin ≤ (livRun ys).consec_closed
            ∧ (livRun ys).eye_was_open = false
        · simp only [if_pos hb, trailTrue_append_false]
          constructor <;> simp
        · simp only [if_neg hb, trailTrue_append_false]
          constructor <;> simp

/-! ## Login orchestrator (login.py)

login_user drives lockout gate, model loading, webcam, liveness, face
recognition, PIN verification and success handling.  The camera, the face
recogniser and the PIN dialog are external inputs, modelled in `LoginEnv`:
each camera frame of the recognition loop carries the faces the cascade
detected with the LBPH prediction already mapped through label_map to a
(username, confidence-distance) pair.  The persistent state (lockouts, users,
access logs, intruder snapshots, sessions) lives in `SysDB`.  f-string result
messages are modelled by the `LoginMsg` constructors carrying exactly the data
interpolated into the corresponding message of the source. -/

/-- login.CONFIDENCE_THRESHOLD = 80.0 (LBPH distance; lower is better). -/
def confidenceThreshold : ℚ := 80

/-- login.LOCKOUT_IDENTIFIER = "login": the single global lockout key. -/
def lockoutIdentifier : String := "login"

/-- login.MAX_RECOG_FRAMES = 150. -/
def maxRecogFrames : Nat := 150

/-- One camera frame of the recognition loop: an opaque image id, the detected
faces as (label_map-mapped user, LBPH confidence distance) pairs, and whether
ESC was pressed during this iteration. -/
structure Frame where
  fid : Nat
  faces : List (String × ℚ)
  esc : Bool
  deriving DecidableEq, Repr

/-- External inputs of one login_user run. -/
structure LoginEnv where
  modelFilesExist : Bool
  modelLoadOk : Bool
  camOk : Bool
  livenessOk : Bool
  postLivenessFrame : Option Nat
  frames : List Frame
  pinEntries : List (List Char)
  deriving DecidableEq, Repr

/-- The persistent state login_user touches.  Users map a username to the
optional stored PIN hash; access-log rows are (username, status, confidence,
timestamp); snapshots are the saved intruder frame ids. -/
structure SysDB where
  lockouts : LockTable
  users : List (String × Option (List Char))
  logs : List (String × String × ℚ × Nat)
  snapshots : List Nat
  sessions : SessTable
  deriving DecidableEq, Repr

/-- Result messages of login_user, one constructor per f-string return of the
source, carrying the interpolated data. -/
inductive LoginMsg where
  | locked (secs : Nat)
  | modelNotFound
  | modelLoadError
  | noWebcam
  | livenessFailLocked
  | livenessFailRemaining (attemptsLeft : Nat)
  | faceNotRecognisedLocked
  | faceNotRecognisedRemaining (attemptsLeft : Nat)
  | noPin (user : String)
  | wrongPinLocked (user : String)
  | wrongPinRemaining (user : String) (attemptsLeft : Nat)
  | success (user : String) (confidence : ℚ)
  deriving DecidableEq, Repr

/-- database.get_pin_hash: the stored pin_hash of the user, or none when the
user does not exist or has no PIN set (NULL column). -/
def get_pin_hash (username : String) : List (String × Option (List Char)) → Option (List Char)
  | [] => none
  | p :: ps => if p.1 = username then p.2 else get_pin_hash username ps

/-- logger.log_attempt: append a row to the access-log table. -/
def log_attempt (now : Nat) (username status : String) (confidence : ℚ)
    (db : SysDB) : SysDB :=
  { db with logs := db.logs ++ [(username, status, confidence, now)] }

/-- The inner for-loop over the faces of one frame (login.py lines 95-112):
the first face whose confidence distance is below the threshold is accepted
(match quality max(0, 100 - confidence)) and clears the candidate intruder
frame; every rejected face overwrites the candidate intruder frame with the
current frame. -/
def scanFaces (fid : Nat) : List (String × ℚ) → Option Nat →
    Option (String × ℚ) × Option Nat
  | [], intruder => (none, intruder)
  | (user, confidence) :: rest, _intruder =>
      if confidence < confidenceThreshold then
        (some (user, max 0 (100 - confidence)), none)
      else
        scanFaces fid rest (some fid)

/-- The recognition while-loop (login.py lines 85-124): consume up to
MAX_RECOG_FRAMES frames (a shorter list models cap.read() failing), stop at
the first accepted match or when ESC is pressed, and carry the candidate
intruder frame across iterations. -/
def recogLoop : Nat → List Frame → Option Nat →
    Option (String × ℚ) × Option Nat
  | 0, _, intruder => (none, intruder)
  | _ + 1, [], intruder => (none, intruder)
  | fuel + 1, f :: rest, intruder =>
      match scanFaces f.fid f.faces intruder with
      | (some r, intruder1) => (some r, intruder1)
      | (none, intruder1) =>
          if f.esc then (none, intruder1) else recogLoop fuel rest intruder1

/-- login.login_user, at (frozen) time `now`, with `H` the SHA-256 hex digest
used by the PIN verifier.  Mirrors the control flow of the source:
1. lockout gate (is_locked_out may lazily heal the table);
2. model presence / model loading / webcam availability guards;
3. liveness: on failure, release the camera, record a failure, log
   LIVENESS_FAIL and only then attempt the intruder snapshot from the
   already-released capture (cap.isOpened() is false, so the read never
   happens), then report lockout or attempts left;
4. recognition loop;
5. unrecognised face: save the candidate intruder snapshot and log INTRUDER,
   or log FAILED when no candidate exists; record a failure; report;
6. PIN: missing hash logs NO_PIN and records a failure; a failed PIN dialog
   logs WRONG_PIN and records a failure;
7. success: reset the lockout record, log SUCCESS with the match quality and
   return the welcome message.  (The source never calls
   session.create_session: no row is added to the sessions table.) -/
def login_user (H : List Char → List Char) (env : LoginEnv) (now : Nat)
    (db0 : SysDB) : (Bool × LoginMsg) × SysDB :=
  let lockRes := is_locked_out now lockoutIdentifier db0.lockouts
  let db := { db0 with lockouts := lockRes.2 }
  if lockRes.1.1 then ((false, .locked lockRes.1.2), db)
  else if env.modelFilesExist = false then ((false, .modelNotFound), db)
  else if env.modelLoadOk = false then ((false, .modelLoadError), db)
  else if env.camOk = false then ((false, .noWebcam), db)
  else if env.livenessOk = false then
    let capOpen := false
    let rf := record_failure now lockoutIdentifier db.lockouts
    let db := { db with lockouts := rf.2 }
    let db := log_attempt now "UNKNOWN" "LIVENESS_FAIL" 0 db
    let snap := if capOpen then env.postLivenessFrame else none
    let db := match snap with
      | some f => { db with snapshots := db.snapshots ++ [f] }
      | none => db
    if 5 ≤ rf.1.1 then ((false, .livenessFailLocked), db)
    else ((false, .livenessFailRemaining (5 - rf.1.1)), db)
  else
    let scan := recogLoop maxRecogFrames env.frames none
    match scan.1 with
    | none =>
        let db := match scan.2 with
          | some f =>
              log_attempt now "UNKNOWN" "INTRUDER" 0
                { db with snapshots := db.snapshots ++ [f] }
          | none => log_attempt now "UNKNOWN" "FAILED" 0 db
        let rf := record_failure now lockoutIdentifier db.lockouts
        let db := { db with lockouts := rf.2 }
        if 5 ≤ rf.1.1 then ((false, .faceNotRecognisedLocked), db)
        else ((false, .faceNotRecognisedRemaining (5 - rf.1.1)), db)
    | some (user, quality) =>
        match get_pin_hash user db.users with
        | none =>
            let db := log_attempt now user "NO_PIN" quality db
            let rf := record_failure now lockoutIdentifier db.lockouts
            let db := { db with lockouts := rf.2 }
            ((false, .noPin user), db)
        | some stored =>
            if prompt_verify H stored 3 env.pinEntries then
              let db := { db with lockouts := reset_failures lockoutIdentifier db.lockouts }
              let db := log_attempt now user "SUCCESS" quality db
              ((true, .success user quality), db)
            else
              let db := log_attempt now user "WRONG_PIN" quality db
              let rf := record_failure now lockoutIdentifier db.lockouts
              let db := { db with lockouts := rf.2 }
              if 5 ≤ rf.1.1 then ((false, .wrongPinLocked user), db)
              else ((false, .wrongPinRemaining user (5 - rf.1.1)), db)

/-! ## Lockout lemmas and claims C2, C8, C9 -/

/-- The row stored after a sequence of record_failure calls starting from an
absent record: fail_count is the number of calls, and locked_until is 30
seconds after the last call exactly when at least 5 calls were made. -/
theorem recordFailures_lookup (id : String) (tbl : LockTable)
    (habs : lookupLock tbl id = none) (ts : List Nat) :
    lookupLock (recordFailures id ts tbl) id
      = match ts.getLast? with
        | none => none
        | some tlast =>
            some ⟨ts.length, if 5 ≤ ts.length then some (tlast + 30) else none⟩ := by
  induction ts using List.reverseRecOn with
  | nil => simpa [recordFailures] using habs
  | append_singleton ys y ih =>
      have hfold : recordFailures id (ys ++ [y]) tbl
          = (record_failure y id (recordFailures id ys tbl)).2 := by
        simp [recordFailures, List.foldl_append]
      have hcount : (get_lockout (recordFailures id ys tbl) id).1 = ys.length := by
        rcases hys : ys.getLast? with _ | tlast
        · have hnil : ys = [] := List.getLast?_eq_none_iff.mp hys
          subst hnil
          simp [recordFailures, get_lockout, habs]
        · rw [hys] at ih
          simp [get_lockout, ih]
      rw [hfold]
      simp only [record_failure, lookupLock_upsert_self, hcount]
      simp [List.getLast?_concat]

/-- Specialisation: the fail count read back after `ts.length` failures. -/
theorem recordFailures_count (id : String) (tbl : LockTable)
    (habs : lookupLock tbl id = none) (ts : List Nat) :
    (get_lockout (recordFailures id ts tbl) id).1 = ts.length := by
  have h := recordFailures_lookup id tbl habs ts
  rcases hys : ts.getLast? with _ | tlast
  · have hnil : ts = [] := List.getLast?_eq_none_iff.mp hys
    subst hnil
    simp [recordFailures, get_lockout, habs]
  · rw [hys] at h
    simp [get_lockout, h]

/-- Claim C2: for any identifier, starting from an absent or reset lockout
record, after exactly 5 record_failure calls (times t1..t5) with no
intervening reset, is_locked_out at any check time tc before the lock expiry
reports locked = true with the positive remaining time t5 + 30 - tc; after
exactly 4 such calls it reports locked = false. -/
theorem lockout_threshold (id : String) (tbl : LockTable)
    (habs : lookupLock tbl id = none)
    (t1 t2 t3 t4 t5 tc : Nat) (hc : tc < t5 + 30) :
    (is_locked_out tc id (recordFailures id [t1, t2, t3, t4, t5] tbl)).1
        = (true, t5 + 30 - tc)
    ∧ 0 < t5 + 30 - tc
    ∧ (is_locked_out tc id (recordFailures id [t1, t2, t3, t4] tbl)).1
        = (false, 0) := by
  have h5 := recordFailures_lookup id tbl habs [t1, t2, t3, t4, t5]
  have h4 := recordFailures_lookup id tbl habs [t1, t2, t3, t4]
  simp only [List.getLast?, List.length_cons, List.length_nil] at h5 h4
  norm_num at h5 h4
  refine ⟨?_, by omega, ?_⟩
  · simp [is_locked_out, get_lockout, h5, hc]
  · simp [is_locked_out, get_lockout, h4]

/-- Witness for C2 at concrete times 1..5 and check time 10. -/
theorem lockout_threshold_witness :
    (is_locked_out 10 "login" (recordFailures "login" [1, 2, 3, 4, 5] [])).1
        = (true, 25)
    ∧ 0 < 5 + 30 - 10
    ∧ (is_locked_out 10 "login" (recordFailures "login" [1, 2, 3, 4] [])).1
        = (false, 0) :=
  lockout_threshold "login" [] rfl 1 2 3 4 5 10 (by norm_num)

/-- Claim C8: when the stored lockout record's locked_until lies in the past,
is_locked_out returns (false, 0), the row is lazily deleted, and the record
subsequently reads back as fail_count = 0, locked_until = null. -/
theorem lockout_expiry (id : String) (tbl : LockTable) (c tlock now : Nat)
    (hrec : lookupLock tbl id = some ⟨c, some tlock⟩) (hpast : tlock < now) :
    is_locked_out now id tbl = ((false, 0), reset_failures id tbl)
    ∧ get_lockout (is_locked_out now id tbl).2 id = (0, none) := by
  have hnot : ¬ now < tlock := by omega
  refine ⟨?_, ?_⟩
  · simp [is_locked_out, get_lockout, hrec, hnot]
  · simp [is_locked_out, get_lockout, hrec, hnot, lookupLock_reset_self]

/-- Witness for C8 on a record locked until time 10, checked at time 50. -/
theorem lockout_expiry_witness :
    is_locked_out 50 "login" [("login", ⟨5, some 10⟩)]
        = ((false, 0), reset_failures "login" [("login", ⟨5, some 10⟩)])
    ∧ get_lockout (is_locked_out 50 "login" [("login", ⟨5, some 10⟩)]).2 "login"
        = (0, none) :=
  lockout_expiry "login" [("login", ⟨5, some 10⟩)] 5 10 50 rfl (by norm_num)

/-- Claim C9: starting from an absent record, the record_failure call made at
time t after `pre` earlier failures returns fail_count = pre.length + 1 and
stores locked_until = t + 30 exactly when that count has reached the
threshold 5, and stores locked_until = null whenever the count is below 5.
In particular locked_until first becomes non-null at the call whose resulting
fail_count is 5, and it is 30 seconds after that triggering failure. -/
theorem locked_until_threshold (id : String) (tbl : LockTable)
    (habs : lookupLock tbl id = none) (pre : List Nat) (t : Nat) :
    (record_failure t id (recordFailures id pre tbl)).1
        = (pre.length + 1, if 5 ≤ pre.length + 1 then some (t + 30) else none)
    ∧ lookupLock (record_failure t id (recordFailures id pre tbl)).2 id
        = some ⟨pre.length + 1,
                if 5 ≤ pre.length + 1 then some (t + 30) else none⟩ := by
  have hcount := recordFailures_count id tbl habs pre
  constructor
  · simp [record_failure, hcount]
  · simp [record_failure, hcount, lookupLock_upsert_self]

/-- Witness for C9: the 5th failure (at time 9, after failures at 1..4) locks
until 39, while the 4th left locked_until null. -/
theorem locked_until_threshold_witness :
    (record_failure 9 "login" (recordFailures "login" [1, 2, 3, 4] [])).1
        = (5, some 39)
    ∧ (record_failure 4 "login" (recordFailures "login" [1, 2, 3] [])).1
        = (4, none) := by
  have h5 := (locked_until_threshold "login" [] rfl [1, 2, 3, 4] 9).1
  have h4 := (locked_until_threshold "login" [] rfl [1, 2, 3] 4).1
  norm_num at h5 h4
  exact ⟨h5, h4⟩

/-! ## Claim C5: PIN round-trip -/

/-- Claim C5: for every all-digit PIN of length 4-8, any salt (a hex string,
which never contains the "$" separator), and a collision-free hash `H`,
verify_pin accepts the PIN against its own hash record and rejects every
different PIN. -/
theorem pin_roundtrip (H : List Char → List Char) (hH : Function.Injective H)
    (salt pin wrong : List Char) (hsalt : pinSep ∉ salt)
    (_hdig : ∀ c ∈ pin, c.isDigit) (_hlen4 : 4 ≤ pin.length)
    (_hlen8 : pin.length ≤ 8) (hne : wrong ≠ pin) :
    verify_pin H pin (hash_pin H salt pin) = true
    ∧ verify_pin H wrong (hash_pin H salt pin) = false := by
  have hsplit : splitAtFirst pinSep (hash_pin H salt pin)
      = some (salt, H (salt ++ pin)) := splitAtFirst_append pinSep salt _ hsalt
  constructor
  · simp [verify_pin, hsplit]
  · simp only [verify_pin, hsplit]
    rw [decide_eq_false_iff_not]
    intro hEq
    have hHeq : H (salt ++ wrong) = H (salt ++ pin) := by
      simpa [hash_pin] using hEq
    exact hne (List.append_cancel_left (hH hHeq))

/-- Witness for C5 with H = id, salt "ab", pin "4242", wrong PIN "1234". -/
theorem pin_roundtrip_witness :
    verify_pin id ['4', '2', '4', '2']
        (hash_pin id ['a', 'b'] ['4', '2', '4', '2']) = true
    ∧ verify_pin id ['1', '2', '3', '4']
        (hash_pin id ['a', 'b'] ['4', '2', '4', '2']) = false :=
  pin_roundtrip id (fun _ _ h => h) ['a', 'b'] ['4', '2', '4', '2']
    ['1', '2', '3', '4'] (by decide) (by decide) (by decide) (by decide)
    (by decide)

/-! ## Session claims C3, C6, C7

Concrete stand-ins for the serialisation and the keyed hash, used by the
witnesses and the counterexample. -/

/-- Concrete payload encoding for witnesses (what base64-of-JSON produces is
opaque here). -/
def witEnc : SessPayload → List Char := fun _ => ['p']

/-- Concrete payload decoding matching witEnc on the witness payload. -/
def witDec : List Char → Option SessPayload :=
  fun s => if s = ['p'] then some ⟨['u'], 0, sessionDuration, ['n']⟩ else none

/-- Concrete signer for witnesses. -/
def witSign : List Char → List Char := fun s => if s = ['p'] then ['s'] else ['t']

/-- Concrete signer with 64-character dot-free output, as a hex HMAC digest
has. -/
def witSign64 : List Char → List Char :=
  fun s => if s = ['p'] then List.replicate 64 'a' else List.replicate 64 'b'

/-- Concrete decoder that always fails (never reached by the C6 witness). -/
def witDecNone : List Char → Option SessPayload := fun _ => none

/-- Claim C3 as stated is false at the boundary: a token created at T = 0 is
still accepted by validate_session at exactly T + 30min (the source rejects
only when now is strictly greater than expires_at), while the claim says it
is rejected at T + 30min. -/
theorem session_validity_cex :
    (validate_session witSign witDec (0 + sessionDuration)
        (create_session witSign witEnc 0 ['u'] ['n'] []).1
        (create_session witSign witEnc 0 ['u'] ['n'] []).2).1
      = some ⟨['u'], 0, 0 + sessionDuration, ['n']⟩ := by decide

/-- Claim C3 (amended): a token created at T with an untouched server-side
record is accepted by validate_session at any time in [T, T + 30min]
(boundary included), and rejected at any time strictly after T + 30min. -/
theorem session_validity_window
    (sign : List Char → List Char) (enc : SessPayload → List Char)
    (dec : List Char → Option SessPayload) (u nonce : List Char) (T : Nat)
    (tbl : SessTable)
    (hdec : dec (enc ⟨u, T, T + sessionDuration, nonce⟩)
        = some ⟨u, T, T + sessionDuration, nonce⟩)
    (hnodot : tokSep ∉ sign (enc ⟨u, T, T + sessionDuration, nonce⟩))
    (hfresh : lookupSess tbl (create_session sign enc T u nonce tbl).1 = none) :
    (∀ v, T ≤ v → v ≤ T + sessionDuration →
      validate_session sign dec v (create_session sign enc T u nonce tbl).1
          (create_session sign enc T u nonce tbl).2
        = (some ⟨u, T, T + sessionDuration, nonce⟩,
           (create_session sign enc T u nonce tbl).2))
    ∧ (∀ v, T + sessionDuration < v →
      validate_session sign dec v (create_session sign enc T u nonce tbl).1
          (create_session sign enc T u nonce tbl).2
        = (none,
           invalidate_session (create_session sign enc T u nonce tbl).1
             (create_session sign enc T u nonce tbl).2)) := by
  have htok : (create_session sign enc T u nonce tbl).1
      = enc ⟨u, T, T + sessionDuration, nonce⟩
        ++ tokSep :: sign (enc ⟨u, T, T + sessionDuration, nonce⟩) := rfl
  have hsplit := rsplitSep_append (enc ⟨u, T, T + sessionDuration, nonce⟩)
    (sign (enc ⟨u, T, T + sessionDuration, nonce⟩)) hnodot
  have hfresh2 : lookupSess tbl
      (enc ⟨u, T, T + sessionDuration, nonce⟩
        ++ tokSep :: sign (enc ⟨u, T, T + sessionDuration, nonce⟩)) = none := by
    rw [← htok]
    exact hfresh
  have hlook := lookupSess_append_fresh tbl
    (enc ⟨u, T, T + sessionDuration, nonce⟩
      ++ tokSep :: sign (enc ⟨u, T, T + sessionDuration, nonce⟩))
    ⟨u, T, T + sessionDuration, true⟩ hfresh2
  constructor
  · intro v hTv hvend
    have hnotexp : ¬ (T + sessionDuration < v) := by omega
    rw [validate_session, htok, hsplit]
    simp [hdec, hnotexp, create_session, hlook]
  · intro v hexp
    rw [validate_session, htok, hsplit]
    simp [hdec, hexp, create_session]

/-- Witness for the amended C3: acceptance inside the window (v = 900) and
rejection after it (v = 2000) for a token created at T = 0. -/
theorem session_validity_window_witness :
    validate_session witSign witDec 900
        (create_session witSign witEnc 0 ['u'] ['n'] []).1
        (create_session witSign witEnc 0 ['u'] ['n'] []).2
      = (some ⟨['u'], 0, 0 + sessionDuration, ['n']⟩,
         (create_session witSign witEnc 0 ['u'] ['n'] []).2)
    ∧ validate_session witSign witDec 2000
        (create_session witSign witEnc 0 ['u'] ['n'] []).1
        (create_session witSign witEnc 0 ['u'] ['n'] []).2
      = (none,
         invalidate_session (create_session witSign witEnc 0 ['u'] ['n'] []).1
           (create_session witSign witEnc 0 ['u'] ['n'] []).2) := by
  have h := session_validity_window witSign witEnc witDec ['u'] ['n'] 0 []
    (by decide) (by decide) (by decide)
  exact ⟨h.1 900 (by decide) (by decide), h.2 2000 (by decide)⟩

/-- Claim C7: validating an expired-but-active token returns invalid and
proactively flips the stored record's active flag to false; a second
validation leaves the state unchanged, and invalidate_session is idempotent
(in general and on this token). -/
theorem session_selfheal_idem
    (sign : List Char → List Char) (enc : SessPayload → List Char)
    (dec : List Char → Option SessPayload) (u nonce : List Char) (T : Nat)
    (tbl : SessTable) (v : Nat)
    (hdec : dec (enc ⟨u, T, T + sessionDuration, nonce⟩)
        = some ⟨u, T, T + sessionDuration, nonce⟩)
    (hnodot : tokSep ∉ sign (enc ⟨u, T, T + sessionDuration, nonce⟩))
    (hfresh : lookupSess tbl (create_session sign enc T u nonce tbl).1 = none)
    (hexp : T + sessionDuration < v) :
    validate_session sign dec v (create_session sign enc T u nonce tbl).1
        (create_session sign enc T u nonce tbl).2
      = (none,
         invalidate_session (create_session sign enc T u nonce tbl).1
           (create_session sign enc T u nonce tbl).2)
    ∧ lookupSess
        (invalidate_session (create_session sign enc T u nonce tbl).1
          (create_session sign enc T u nonce tbl).2)
        (create_session sign enc T u nonce tbl).1
      = some ⟨u, T, T + sessionDuration, false⟩
    ∧ validate_session sign dec v (create_session sign enc T u nonce tbl).1
        (invalidate_session (create_session sign enc T u nonce tbl).1
          (create_session sign enc T u nonce tbl).2)
      = (none,
         invalidate_session (create_session sign enc T u nonce tbl).1
           (create_session sign enc T u nonce tbl).2)
    ∧ ∀ (tb : SessTable) (tk : List Char),
        invalidate_session tk (invalidate_session tk tb)
          = invalidate_session tk tb := by
  have htok : (create_session sign enc T u nonce tbl).1
      = enc ⟨u, T, T + sessionDuration, nonce⟩
        ++ tokSep :: sign (enc ⟨u, T, T + sessionDuration, nonce⟩) := rfl
  have hsplit := rsplitSep_append (enc ⟨u, T, T + sessionDuration, nonce⟩)
    (sign (enc ⟨u, T, T + sessionDuration, nonce⟩)) hnodot
  have hlook : lookupSess (create_session sign enc T u nonce tbl).2
      (create_session sign enc T u nonce tbl).1
      = some ⟨u, T, T + sessionDuration, true⟩ := by
    have := lookupSess_append_fresh tbl (create_session sign enc T u nonce tbl).1
      ⟨u, T, T + sessionDuration, true⟩ hfresh
    simpa [create_session] using this
  refine ⟨?_, ?_, ?_, fun tb tk => invalidate_session_idem tk tb⟩
  · rw [validate_session, htok, hsplit]
    simp [hdec, hexp, create_session]
  · rw [lookupSess_invalidate, hlook]
    rfl
  · rw [validate_session, htok, hsplit]
    simp only [hdec, if_pos rfl, hexp, if_true]
    rw [← htok, invalidate_session_idem]

/-- Witness for C7 with the concrete token created at T = 0, validated at
v = 2000. -/
theorem session_selfheal_idem_witness :
    validate_session witSign witDec 2000
        (create_session witSign witEnc 0 ['u'] ['n'] []).1
        (invalidate_session (create_session witSign witEnc 0 ['u'] ['n'] []).1
          (create_session witSign witEnc 0 ['u'] ['n'] []).2)
      = (none,
         invalidate_session (create_session witSign witEnc 0 ['u'] ['n'] []).1
           (create_session witSign witEnc 0 ['u'] ['n'] []).2) :=
  (session_selfheal_idem witSign witEnc witDec ['u'] ['n'] 0 [] 2000
    (by decide) (by decide) (by decide) (by decide)).2.2.1

/-- Decompose a list at its last occurrence of the token separator. -/
theorem exists_lastSep (s : List Char) (hs : tokSep ∈ s) :
    ∃ a b, s = a ++ tokSep :: b ∧ tokSep ∉ b := by
  induction s using List.reverseRecOn with
  | nil => cases hs
  | append_singleton ys y ih =>
      by_cases hy : y = tokSep
      · exact ⟨ys, [], by simp [hy], by simp⟩
      · have hys : tokSep ∈ ys := by
          rcases List.mem_append.mp hs with h | h
          · exact h
          · simp only [List.mem_singleton] at h
            exact absurd h.symm hy
        obtain ⟨a, b, hab, hb⟩ := ih hys
        refine ⟨a, b ++ [y], by simp [hab], ?_⟩
        intro hmem
        rcases List.mem_append.mp hmem with h | h
        · exact hb h
        · simp only [List.mem_singleton] at h
          exact hy h.symm

/-- Claim C6: for a token produced by create_session, replacing the encoded
payload part by any different string, or the signature part by any different
64-character string, yields a token validate_session rejects — given that the
keyed hash has no collision with the genuine payload encoding, and produces
64-character dot-free hex output. -/
theorem session_tamper_detection
    (sign : List Char → List Char) (enc : SessPayload → List Char)
    (dec : List Char → Option SessPayload) (u nonce : List Char) (T : Nat)
    (tbl : SessTable)
    (hcoll : ∀ q, q ≠ enc ⟨u, T, T + sessionDuration, nonce⟩ →
        sign q ≠ sign (enc ⟨u, T, T + sessionDuration, nonce⟩))
    (hlen : ∀ s, (sign s).length = 64)
    (hnodot : ∀ s, tokSep ∉ sign s) :
    (∀ p v, p ≠ enc ⟨u, T, T + sessionDuration, nonce⟩ →
        (validate_session sign dec v
          (p ++ tokSep :: sign (enc ⟨u, T, T + sessionDuration, nonce⟩))
          (create_session sign enc T u nonce tbl).2).1 = none)
    ∧ (∀ s v, s ≠ sign (enc ⟨u, T, T + sessionDuration, nonce⟩) →
        s.length = 64 →
        (validate_session sign dec v
          (enc ⟨u, T, T + sessionDuration, nonce⟩ ++ tokSep :: s)
          (create_session sign enc T u nonce tbl).2).1 = none) := by
  constructor
  · intro p v hp
    have hsplit := rsplitSep_append p
      (sign (enc ⟨u, T, T + sessionDuration, nonce⟩))
      (hnodot (enc ⟨u, T, T + sessionDuration, nonce⟩))
    rw [validate_session, hsplit]
    simp [hcoll p hp]
  · intro s v hs hslen
    by_cases hdot : tokSep ∈ s
    · obtain ⟨a, b, hab, hb⟩ := exists_lastSep s hdot
      have hblen : b.length < 64 := by
        have : s.length = a.length + 1 + b.length := by
          simp [hab]
          omega
        omega
      have htok : enc ⟨u, T, T + sessionDuration, nonce⟩ ++ tokSep :: s
          = (enc ⟨u, T, T + sessionDuration, nonce⟩ ++ tokSep :: a) ++ tokSep :: b := by
        simp [hab]
      have hsplit := rsplitSep_append
        (enc ⟨u, T, T + sessionDuration, nonce⟩ ++ tokSep :: a) b hb
      rw [validate_session, htok, hsplit]
      have hne : sign (enc ⟨u, T, T + sessionDuration, nonce⟩ ++ tokSep :: a) ≠ b := by
        intro hEq
        have := hlen (enc ⟨u, T, T + sessionDuration, nonce⟩ ++ tokSep :: a)
        rw [hEq] at this
        omega
      simp [hne]
    · have hsplit := rsplitSep_append
        (enc ⟨u, T, T + sessionDuration, nonce⟩) s hdot
      rw [validate_session, hsplit]
      have hne : sign (enc ⟨u, T, T + sessionDuration, nonce⟩) ≠ s :=
        fun hEq => hs hEq.symm
      simp [hne]

/-- Witness for C6: with the 64-character concrete signer, the token whose
payload part was replaced by "q" is rejected at validation time 0. -/
theorem session_tamper_detection_witness :
    (validate_session witSign64 witDecNone 0
        (['q'] ++ tokSep :: witSign64 (witEnc ⟨['u'], 0, 0 + sessionDuration, ['n']⟩))
        (create_session witSign64 witEnc 0 ['u'] ['n'] []).2).1 = none := by
  have h := session_tamper_detection witSign64 witEnc witDecNone ['u'] ['n'] 0 []
    (by
      intro q hq
      have hq2 : q ≠ ['p'] := hq
      show (if q = ['p'] then List.replicate 64 'a' else List.replicate 64 'b')
          ≠ witSign64 (witEnc ⟨['u'], 0, 0 + sessionDuration, ['n']⟩)
      rw [if_neg hq2]
      decide)
    (by
      intro s
      by_cases h : s = ['p'] <;> simp [witSign64, h])
    (by
      intro s
      by_cases h : s = ['p'] <;> simp [witSign64, h, tokSep, List.mem_replicate])
  exact h.1 ['q'] 0 (by decide)

/-! ## Claim C4: blink debounce and counting -/

/-- Claim C4: at every step of every run of the blink state machine, the blink
counter increments exactly when the current frame is open (a closed-to-open
transition) and the trailing closed span of the trace has length at least
CONSEC_CLOSED = 2 — so a closed span of a single frame never increments it —
and whenever a blink is counted the smoothing history is cleared. -/
theorem blink_debounce_counting (xs : List ℚ) (x : ℚ) :
    ((livStep (livRun xs) x).blink_count
      = (livRun xs).blink_count
        + (if livClosed (livRun xs) x = false
              ∧ consecClosedMin ≤ trailTrue (livTrace xs) then 1 else 0))
    ∧ ((livRun xs).blink_count < (livStep (livRun xs) x).blink_count
        → (livStep (livRun xs) x).ratio_history = []) := by
  obtain ⟨hc, ho⟩ := livRun_invariant xs
  by_cases hcl : livClosed (livRun xs) x
  · constructor
    · simp [livStep, hcl]
    · intro h
      simp [livStep, hcl] at h
  · have hcl' : livClosed (livRun xs) x = false := by simpa using hcl
    by_cases hb : consecClosedMin ≤ (livRun xs).consec_closed
        ∧ (livRun xs).eye_was_open = false
    · have htr : consecClosedMin ≤ trailTrue (livTrace xs) := hc ▸ hb.1
      constructor
      · simp [livStep, hcl', hb, htr]
      · intro _
        simp [livStep, hcl', hb]
    · have htr : ¬ consecClosedMin ≤ trailTrue (livTrace xs) := by
        intro hge
        apply hb
        refine ⟨hc ▸ hge, ?_⟩
        rw [ho]
        have hne : trailTrue (livTrace xs) ≠ 0 := by
          have h2 : 0 < consecClosedMin := by norm_num [consecClosedMin]
          omega
        simp [hne]
      constructor
      · simp [livStep, hcl', hb, htr]
      · intro h
        simp [livStep, hcl', hb] at h

/-- Witness for C4: ratios 0, 0 (two closed frames) followed by 1 (an open
frame) count a blink, and the smoothing history is cleared. -/
theorem blink_debounce_counting_witness :
    (livStep (livRun [0, 0]) 1).ratio_history = [] :=
  (blink_debounce_counting [0, 0] 1).2 (by
    norm_num [livStep, livRun, livInit, livClosed, pushRatio, smoothedOf,
      eyeClosedThreshold, consecClosedMin, historyLen, List.foldl])

/-! ## Login claims C1 and C10 -/

/-- Identity stand-in for the SHA-256 hex digest in the login scenarios. -/
def witH : List Char → List Char := id

/-- Environment of a fully successful login: liveness passes, the first frame
carries a face matching "alice" at distance 40 (below the threshold 80), and
the correct PIN "4242" is entered at the dialog. -/
def envSuccess : LoginEnv :=
  { modelFilesExist := true, modelLoadOk := true, camOk := true,
    livenessOk := true, postLivenessFrame := none,
    frames := [⟨1, [("alice", 40)], false⟩],
    pinEntries := [['4', '2', '4', '2']] }

/-- Starting state for C1: three prior failures on the shared "login" record,
alice enrolled with the hash of PIN "4242", and one unrelated pre-existing
session row. -/
def dbSuccess : SysDB :=
  { lockouts := [("login", ⟨3, none⟩)],
    users := [("alice", some (hash_pin witH ['a', 'b'] ['4', '2', '4', '2']))],
    logs := [], snapshots := [],
    sessions := [(['t'], ⟨['b'], 0, 10, true⟩)] }

/-- Claim C1 (code-bug evidence): when every check of the LOGIN sequence
passes, login_user resets the "login" lockout record, appends a SUCCESS
access-log row carrying the match quality max(0, 100 - 40) = 60, and returns
success with the matched identity and its confidence — but the sessions table
is left completely untouched: login.py never calls session.create_session, so
no session token is issued, contrary to the claim (and to session.py's own
documentation, which says tokens are generated after successful login). -/
theorem login_success_no_session :
    login_user witH envSuccess 1000 dbSuccess
      = ((true, LoginMsg.success "alice" 60),
         { lockouts := [], users := dbSuccess.users,
           logs := [("alice", "SUCCESS", 60, 1000)],
           snapshots := [], sessions := dbSuccess.sessions }) := by
  simp only [login_user, envSuccess, dbSuccess, is_locked_out, get_lockout,
    lookupLock, lockoutIdentifier, recogLoop, maxRecogFrames, scanFaces,
    confidenceThreshold, get_pin_hash, prompt_verify, verify_pin, hash_pin,
    pinSep, splitAtFirst, log_attempt, reset_failures, record_failure,
    upsertLock, witH]
  norm_num [splitAtFirst, smoothedOf]
  decide

/-- Environment of a login whose liveness check fails while the camera still
has a frame available (postLivenessFrame = some 7). -/
def envLiveFail : LoginEnv :=
  { modelFilesExist := true, modelLoadOk := true, camOk := true,
    livenessOk := false, postLivenessFrame := some 7,
    frames := [], pinEntries := [] }

/-- Starting state for C10: no prior failures; one pre-existing snapshot to
show the snapshot store is left untouched. -/
def dbLiveFail : SysDB :=
  { lockouts := [], users := [], logs := [], snapshots := [3], sessions := [] }

/-- Claim C10 (code-bug evidence): on liveness failure, login_user records
exactly one lockout failure (fail_count goes 0 to 1), writes one
LIVENESS_FAIL access-log row for "UNKNOWN", and returns the failure result
with the remaining-attempts count 5 - 1 = 4 — but even though a camera frame
is available, no intruder snapshot is persisted: login.py releases the
capture before attempting the snapshot read, so cap.isOpened() is false and
the read can never happen, contrary to the claim's snapshot clause. -/
theorem liveness_fail_no_snapshot :
    login_user witH envLiveFail 500 dbLiveFail
      = ((false, LoginMsg.livenessFailRemaining 4),
         { lockouts := [("login", ⟨1, none⟩)], users := [],
           logs := [("UNKNOWN", "LIVENESS_FAIL", 0, 500)],
           snapshots := [3], sessions := [] }) := by
  decide

end BioAuth
